import Mathlib

/-!
Shallow embedding of the metric / training-orchestration core of the
Binary-Segmentation-of-Large-Scale-3D-Volumes repository.

Conventions used throughout:
* 3D points are triples of rationals (`Point`); tensors of scores are `List ℚ`.
  Float arithmetic of the source is modelled by exact rational arithmetic.
* The pykdtree nearest-neighbour query of `Misc.py` returns, per query point,
  the Euclidean distance to the closest label point; the source only ever
  compares that distance with `0.0`, which holds iff the query point coincides
  with some label point.  We model the comparison `dist == 0.0` directly as
  `nearestDistZero` (existence of a label point at squared distance zero).
  For an empty label set there is no neighbour at distance zero.
* Operations that can raise a Python exception (`torch.max` over an empty
  tensor, elementwise ops / boolean indexing on shape-mismatched tensors,
  dict `KeyError`, out-of-bounds fancy indexing, `np.mean` of an empty or
  non-numeric selection, `AttributeError`) return `Option`/`none`.
-/

/-- A 3D point with rational coordinates. -/
abbrev Point : Type := ℚ × ℚ × ℚ

/-- Squared Euclidean distance between two points. -/
def sqDist (a b : Point) : ℚ :=
  (a.1 - b.1) ^ 2 + (a.2.1 - b.2.1) ^ 2 + (a.2.2 - b.2.2) ^ 2

/-- Model of `kd_tree.query(c)[0] == 0.0` in `Misc.py`: the nearest-neighbour
distance of query point `c` to the label point set is exactly zero, i.e. some
label point lies at squared distance zero from `c`. -/
def nearestDistZero (label : List Point) (c : Point) : Bool :=
  label.any (fun l => decide (sqDist c l = 0))

/-- Ground-truth mask `(dist_coordinates_to_label == 0.0)` of `Misc.py`
(`intersection_over_union`, `precision`, `recall`): one Boolean per query
coordinate, in order. -/
def labelMask (coordinates label : List Point) : List Bool :=
  coordinates.map (nearestDistZero label)

/-- Thresholding `(prediction > threshold)` of the flattened prediction tensor
(`Misc.py`, used by all four metric functions). -/
def thresholdMask (prediction : List ℚ) (threshold : ℚ) : List Bool :=
  prediction.map (fun x => decide (threshold < x))

/-- The epsilon `1e-9` added to denominators in `Misc.py`. -/
def metricEps : ℚ := 1 / 1000000000

/-- Embedding of `Misc.intersection_over_union` (point-set IoU).
`prediction + coordinates_label` requires the two 1D tensors to have equal
length (torch raises on shape mismatch, modelled as `none`; the length-1
broadcast corner of torch is not used by the repository and not modelled).
`s` is the elementwise sum of the two 0/1 masks; intersection counts entries
equal to 2, union counts entries `>= 1`. -/
def intersection_over_union (prediction : List ℚ) (coordinates label : List Point)
    (threshold : ℚ) : Option ℚ :=
  if prediction.length = coordinates.length then
    let p := thresholdMask prediction threshold
    let g := labelMask coordinates label
    let s := List.zipWith (fun a b => (if a then (1 : ℚ) else 0) + (if b then (1 : ℚ) else 0)) p g
    let inter : ℚ := ((s.filter (fun x => decide (x = 2))).length : ℚ)
    let uni : ℚ := ((s.filter (fun x => decide (1 ≤ x))).length : ℚ)
    some (inter / (uni + metricEps))
  else none

/-- Embedding of `Misc.precision`: `tp` marks entries positive in both masks,
`fp` entries positive in the prediction but not in the ground truth;
result is `sum tp / (sum (tp + fp) + 1e-9)`. -/
def precision (prediction : List ℚ) (coordinates label : List Point)
    (threshold : ℚ) : Option ℚ :=
  if prediction.length = coordinates.length then
    let p := thresholdMask prediction threshold
    let g := labelMask coordinates label
    let tp := List.zipWith (fun a b => if a && b then (1 : ℚ) else 0) p g
    let fp := List.zipWith (fun a b => if a && !b then (1 : ℚ) else 0) p g
    some (tp.sum / ((List.zipWith (· + ·) tp fp).sum + metricEps))
  else none

/-- Embedding of `Misc.recall` (named `recallMetric` since `recall` is reserved): `tp` as in `precision`, `fn` marks entries
negative in the prediction but positive in the ground truth;
result is `sum tp / (sum (tp + fn) + 1e-9)`. -/
def recallMetric (prediction : List ℚ) (coordinates label : List Point)
    (threshold : ℚ) : Option ℚ :=
  if prediction.length = coordinates.length then
    let p := thresholdMask prediction threshold
    let g := labelMask coordinates label
    let tp := List.zipWith (fun a b => if a && b then (1 : ℚ) else 0) p g
    let fn := List.zipWith (fun a b => if !a && b then (1 : ℚ) else 0) p g
    some (tp.sum / ((List.zipWith (· + ·) tp fn).sum + metricEps))
  else none

/-- Componentwise maximum of two points (`torch.max(a, b)` on 3-vectors). -/
def pmax (a b : Point) : Point := (max a.1 b.1, max a.2.1 b.2.1, max a.2.2 b.2.2)

/-- Componentwise minimum of two points (`torch.min(a, b)` on 3-vectors). -/
def pmin (a b : Point) : Point := (min a.1 b.1, min a.2.1 b.2.1, min a.2.2 b.2.2)

/-- Componentwise sum of two points. -/
def padd (a b : Point) : Point := (a.1 + b.1, a.2.1 + b.2.1, a.2.2 + b.2.2)

/-- Componentwise difference of two points. -/
def psub (a b : Point) : Point := (a.1 - b.1, a.2.1 - b.2.1, a.2.2 - b.2.2)

/-- Componentwise absolute value (`torch.abs` on 3-vectors). -/
def pabs (a : Point) : Point := (|a.1|, |a.2.1|, |a.2.2|)

/-- Product of the components (`torch.prod` on 3-vectors). -/
def pprod (a : Point) : ℚ := a.1 * a.2.1 * a.2.2

/-- Embedding of `Misc.intersection_over_union_bounding_box`.
Returns the triple `(iou, edge_size_prediction, bounding_box_error)`.
Control flow follows the source line by line:
* `coordinates_label` is the sublist of query coordinates at nearest-neighbour
  distance zero from the label set;
* if the query coordinate set itself is empty the source returns the triple
  `(1, [0,0,0], [0,0,0])` (the guard reads `coordinates.shape[0] == 0`, not
  `coordinates_label.shape[0] == 0`);
* otherwise `torch.max(coordinates_label, dim=0)` is taken, which raises a
  `RuntimeError` when `coordinates_label` is empty — modelled as `none`;
* after thresholding, boolean indexing `coordinates[prediction == 1.0]`
  requires the mask length to match (`none` on mismatch); if no coordinate is
  predicted positive the source returns `(0, [0,0,0], [0,0,0])`;
* otherwise boxes, volumes, clipped overlap, IoU and the per-axis corner error
  are computed exactly as in the source. -/
def intersection_over_union_bounding_box (prediction : List ℚ)
    (coordinates label : List Point) (threshold : ℚ) (offset : Point) :
    Option (ℚ × Point × Point) :=
  let coordinates_label := coordinates.filter (fun c => nearestDistZero label c)
  if coordinates.length = 0 then
    some (1, (0, 0, 0), (0, 0, 0))
  else
    match coordinates_label with
    | [] => none
    | c :: cs =>
      let max_coordinates_label := padd (cs.foldl pmax c) offset
      let min_coordinates_label := psub (cs.foldl pmin c) offset
      let p := thresholdMask prediction threshold
      if prediction.length = coordinates.length then
        match ((coordinates.zip p).filter (fun q => q.2)).map (fun q => q.1) with
        | [] => some (0, (0, 0, 0), (0, 0, 0))
        | d :: ds =>
          let max_coordinates_prediction := ds.foldl pmax d
          let min_coordinates_prediction := ds.foldl pmin d
          let edge_sizes_label := pabs (psub max_coordinates_label min_coordinates_label)
          let bounding_box_label_volume := pprod edge_sizes_label
          let edge_size_prediction := pabs (psub max_coordinates_prediction min_coordinates_prediction)
          let bounding_box_prediction_volume := pprod edge_size_prediction
          let overlap := pmax (0, 0, 0)
            (psub (pmin max_coordinates_prediction max_coordinates_label)
                  (pmax min_coordinates_prediction min_coordinates_label))
          let inter := pprod overlap
          let iou := inter /
            (bounding_box_prediction_volume + bounding_box_label_volume - inter + metricEps)
          let bounding_box_error := pmax
            (pabs (psub max_coordinates_prediction max_coordinates_label))
            (pabs (psub min_coordinates_prediction min_coordinates_label))
          some (iou, edge_size_prediction, bounding_box_error)
      else none

/-- The in-process metric accumulator `self.metrics` of
`OccupancyNetworkWrapper`: a Python dict from metric name to a list of logged
values, modelled as an insertion-ordered association list.  Entries of a
series are `Option ℚ` because `logging` can store the Python sentinel `None`
(see `logging` below). -/
abbrev MetricStore : Type := List (String × List (Option ℚ))

/-- Lookup of `self.metrics[name]` (a Python dict access): the series stored
under `name`, or `none` (`KeyError`) when absent. -/
def seriesOf (metrics : MetricStore) (name : String) : Option (List (Option ℚ)) :=
  (metrics.find? (fun q => decide (q.1 = name))).map (fun q => q.2)

/-- Embedding of `OccupancyNetworkWrapper.logging`.  The source first tests
`metric_name in self.metrics`; only inside that branch does it test
`value is None` (returning without change).  In the else-branch it executes
`self.metrics[metric_name] = [value]` unconditionally, so a `None` value
creates a fresh one-element series when the name is absent. -/
def logging (metrics : MetricStore) (metric_name : String) (value : Option ℚ) :
    MetricStore :=
  if metrics.any (fun q => decide (q.1 = metric_name)) then
    match value with
    | none => metrics
    | some v =>
      metrics.map (fun q => if q.1 = metric_name then (q.1, q.2 ++ [some v]) else q)
  else
    metrics ++ [(metric_name, [value])]

/-- Embedding of `OccupancyNetworkWrapper.get_average_metric_for_epoch`.
The source indexes `metric[np.argwhere(epochs == epoch)]` and takes `np.mean`.
`none` models the Python failure modes: `KeyError` on a missing series,
`IndexError` when a matching position exceeds the metric series length, and
`np.mean` over an empty or `None`-containing selection (NaN / `TypeError`). -/
def get_average_metric_for_epoch (metrics : MetricStore) (metric_name : String)
    (epoch : ℚ) : Option ℚ :=
  match seriesOf metrics metric_name, seriesOf metrics "epoch" with
  | some metric, some epochs =>
    let idxs := (List.range epochs.length).filter
      (fun i => decide (epochs[i]? = some (some epoch)))
    if idxs.all (fun i => decide (i < metric.length)) then
      let selected := idxs.filterMap (fun i => metric[i]?)
      if !selected.isEmpty && selected.all (fun o => o.isSome) then
        some ((selected.filterMap id).sum / (selected.length : ℚ))
      else none
    else none
  | _, _ => none

/-- The expression `datetime.now()` inside
`OccupancyNetworkWrapper.save_metrics`: `ModelWrapper.py` does
`import datetime`, so the name `datetime` is the module and `datetime.now`
raises `AttributeError` (elsewhere the file correctly writes
`datetime.datetime.now()`).  Modelled as `none`. -/
def datetime_now : Option String := none

/-- Embedding of `OccupancyNetworkWrapper.save_metrics`: one `torch.save`
per metric name.  The result is the list of `(file name, values)` writes, or
`none` when the loop raises.  Without the time suffix the file name is
`path + '/' + metric_name + '.pt'`; with `add_time_to_file_name` the source
evaluates `datetime.now()` (see `datetime_now`), which raises before any
write of that call can complete. -/
def save_metrics (metrics : MetricStore) (path : String)
    (add_time_to_file_name : Bool) : Option (List (String × List (Option ℚ))) :=
  metrics.mapM (fun q =>
    if add_time_to_file_name then
      match datetime_now with
      | none => none
      | some t => some (path ++ "/" ++ q.1 ++ "_" ++ t ++ ".pt", q.2)
    else some (path ++ "/" ++ q.1 ++ ".pt", q.2))

/-- The comparison `best_loss > validation_loss` in
`OccupancyNetworkWrapper.train`, where `best_loss` is initialized to `np.inf`
(modelled as `none`) and later holds finite losses. -/
def bestGt (best : Option ℚ) (v : ℚ) : Bool :=
  match best with
  | none => true
  | some b => decide (v < b)

/-- The update of `best_loss` in one epoch of `OccupancyNetworkWrapper.train`:
it is overwritten by the epoch's validation loss exactly when the best
checkpoint is written. -/
def bestUpdate (best : Option ℚ) (v : ℚ) : Option ℚ :=
  if bestGt best v then some v else best

/-- End-of-epoch checkpoint decisions of `OccupancyNetworkWrapper.train`
(lines 115-125), per epoch: the pair `(best written, periodic written)`.
The per-batch optimisation and the validation pass are abstracted into the
list of per-epoch validation losses `losses`; `epoch` is the current epoch
index and `best` the current `best_loss`.  The best checkpoint is written
when `save_best_model and best_loss > validation_loss`; the periodic
checkpoint when `epoch % save_model_every_n_epoch == 0`. -/
def checkpointRun (save_best_model : Bool) (save_model_every_n_epoch : ℕ) :
    List ℚ → ℕ → Option ℚ → List (Bool × Bool)
  | [], _, _ => []
  | v :: rest, epoch, best =>
    let bestWrite := save_best_model && bestGt best v
    let best2 := if bestWrite then some v else best
    (bestWrite, decide (epoch % save_model_every_n_epoch = 0)) ::
      checkpointRun save_best_model save_model_every_n_epoch rest (epoch + 1) best2

/-- A whole training run's checkpoint decisions: `train` starts at epoch 0
with `best_loss = np.inf`. -/
def trainCheckpoints (save_best_model : Bool) (save_model_every_n_epoch : ℕ)
    (losses : List ℚ) : List (Bool × Bool) :=
  checkpointRun save_best_model save_model_every_n_epoch losses 0 none

/-- Modelled from the spec (for the refinement claim about `point_iou`):
the ground-truth mask `G` marks query points at exactly zero nearest-neighbour
distance from the label set (i.e. membership), `P` marks prediction entries
strictly greater than the threshold, and the result is
`count(G and P) / (count(G or P) + 1e-9)`. -/
def pointIouSpec (prediction : List ℚ) (coordinates label : List Point)
    (threshold : ℚ) : ℚ :=
  let G := coordinates.map (fun c => decide (c ∈ label))
  let P := prediction.map (fun x => decide (threshold < x))
  let inter := (List.zipWith (fun a b => a && b) G P).count true
  let uni := (List.zipWith (fun a b => a || b) G P).count true
  (inter : ℚ) / ((uni : ℚ) + 1 / 1000000000)

/-- Modelled from the spec (for the claim about `average_for_epoch`): the
subset of the metric series whose positionally-aligned entry of the epoch
series equals the requested epoch. -/
def matchedValues (metric epochs : List (Option ℚ)) (epoch : ℚ) :
    List (Option ℚ) :=
  ((metric.zip epochs).filter (fun q => decide (q.2 = some epoch))).map (fun q => q.1)

theorem sqDist_eq_zero (a b : Point) : sqDist a b = 0 ↔ a = b := by
  obtain ⟨x, y, z⟩ := a
  obtain ⟨u, v, w⟩ := b
  simp only [sqDist, Prod.mk.injEq]
  constructor
  · intro h
    have h1 : x - u = 0 := by nlinarith [sq_nonneg (x - u), sq_nonneg (y - v), sq_nonneg (z - w)]
    have h2 : y - v = 0 := by nlinarith [sq_nonneg (x - u), sq_nonneg (y - v), sq_nonneg (z - w)]
    have h3 : z - w = 0 := by nlinarith [sq_nonneg (x - u), sq_nonneg (y - v), sq_nonneg (z - w)]
    exact ⟨by linarith, by linarith, by linarith⟩
  · rintro ⟨rfl, rfl, rfl⟩
    ring

theorem nearestDistZero_eq_mem (label : List Point) (c : Point) :
    nearestDistZero label c = decide (c ∈ label) := by
  rw [Bool.eq_iff_iff]
  simp only [nearestDistZero, List.any_eq_true, decide_eq_true_eq, sqDist_eq_zero]
  constructor
  · rintro ⟨l, hl, rfl⟩
    exact hl
  · intro h
    exact ⟨c, h, rfl⟩

theorem two_filter_count (p g : List Bool) :
    ((List.zipWith (fun a b => (if a then (1:ℚ) else 0) + (if b then (1:ℚ) else 0)) p g).filter
        (fun x => decide (x = 2))).length =
      (List.zipWith (fun a b => a && b) g p).count true := by
  induction p generalizing g with
  | nil => cases g <;> simp
  | cons a l ih =>
    cases g with
    | nil => simp
    | cons b m =>
      cases a <;> cases b <;>
        norm_num [List.filter_cons, List.count_cons, List.zipWith_cons_cons, ih]

theorem one_filter_count (p g : List Bool) :
    ((List.zipWith (fun a b => (if a then (1:ℚ) else 0) + (if b then (1:ℚ) else 0)) p g).filter
        (fun x => decide (1 ≤ x))).length =
      (List.zipWith (fun a b => a || b) g p).count true := by
  induction p generalizing g with
  | nil => cases g <;> simp
  | cons a l ih =>
    cases g with
    | nil => simp
    | cons b m =>
      cases a <;> cases b <;>
        norm_num [List.filter_cons, List.count_cons, List.zipWith_cons_cons, ih]

theorem save_metrics_no_time (metrics : MetricStore) (path : String) :
    save_metrics metrics path false =
      some (metrics.map (fun q => (path ++ "/" ++ q.1 ++ ".pt", q.2))) := by
  rw [save_metrics, ← List.mapM'_eq_mapM]
  induction metrics with
  | nil => rfl
  | cons a l ih => simp_all [List.mapM']

theorem find_map_update (m : MetricStore) (name : String) (v : ℚ) :
    (m.map (fun q => if q.1 = name then (q.1, q.2 ++ [some v]) else q)).find?
        (fun q => decide (q.1 = name)) =
      (m.find? (fun q => decide (q.1 = name))).map (fun q => (q.1, q.2 ++ [some v])) := by
  induction m with
  | nil => rfl
  | cons a l ih =>
    simp only [List.map_cons]
    by_cases hcond : a.1 = name
    · rw [if_pos hcond, List.find?_cons_of_pos _ (by simpa using hcond),
        List.find?_cons_of_pos _ (by simpa using hcond)]
      simp
    · rw [if_neg hcond, List.find?_cons_of_neg _ (by simpa using hcond),
        List.find?_cons_of_neg _ (by simpa using hcond), ih]

theorem find_map_other (m : MetricStore) (name other : String) (v : ℚ) (h : other ≠ name) :
    (m.map (fun q => if q.1 = name then (q.1, q.2 ++ [some v]) else q)).find?
        (fun q => decide (q.1 = other)) = m.find? (fun q => decide (q.1 = other)) := by
  induction m with
  | nil => rfl
  | cons a l ih =>
    simp only [List.map_cons]
    by_cases ha : a.1 = name
    · have hb : ¬ (a.1 = other) := fun hh => h (ha ▸ hh).symm
      rw [if_pos ha, List.find?_cons_of_neg _ (by simpa using hb),
        List.find?_cons_of_neg _ (by simpa using hb), ih]
    · rw [if_neg ha]
      by_cases hb : a.1 = other
      · rw [List.find?_cons_of_pos _ (by simpa using hb),
          List.find?_cons_of_pos _ (by simpa using hb)]
      · rw [List.find?_cons_of_neg _ (by simpa using hb),
          List.find?_cons_of_neg _ (by simpa using hb), ih]

theorem argwhere_select (epochs : List (Option ℚ)) :
    ∀ (metric : List (Option ℚ)) (e : ℚ), metric.length = epochs.length →
      ((List.range epochs.length).filter
          (fun i => decide (epochs[i]? = some (some e)))).filterMap (fun i => metric[i]?) =
        matchedValues metric epochs e := by
  induction epochs with
  | nil =>
    intro metric e h
    simp [matchedValues]
  | cons b bs ih =>
    intro metric e h
    cases metric with
    | nil => simp at h
    | cons a as =>
      have hlen : as.length = bs.length := by simpa using h
      simp only [List.length_cons, List.range_succ_eq_map, List.filter_cons,
        List.getElem?_cons_zero, List.filter_map, List.filterMap_map, matchedValues,
        List.zip_cons_cons]
      by_cases hb : b = some e
      · rw [if_pos (by simp [hb]), if_pos (by simp [hb])]
        simpa [Function.comp_def, Nat.succ_eq_add_one, matchedValues] using ih as e hlen
      · rw [if_neg (by simp [hb]), if_neg (by simp [hb])]
        simpa [Function.comp_def, Nat.succ_eq_add_one, matchedValues] using ih as e hlen

theorem argwhere_bounds (metric epochs : List (Option ℚ)) (e : ℚ)
    (h : metric.length = epochs.length) :
    ((List.range epochs.length).filter
        (fun i => decide (epochs[i]? = some (some e)))).all
      (fun i => decide (i < metric.length)) = true := by
  rw [List.all_eq_true]
  intro i hi
  have hmem : i ∈ List.range epochs.length := (List.mem_filter.mp hi).1
  have : i < epochs.length := List.mem_range.mp hmem
  simpa [h] using this

theorem filterMap_id_map_some (l : List ℚ) :
    List.filterMap id (l.map some) = l := by
  induction l with
  | nil => rfl
  | cons a l ih => simp [ih]

theorem bestGt_bestUpdate (best : Option ℚ) (a v : ℚ) :
    bestGt (bestUpdate best a) v = (bestGt best v && decide (v < a)) := by
  cases best with
  | none => simp [bestUpdate, bestGt]
  | some b =>
    by_cases h : a < b
    · have hupd : bestUpdate (some b) a = some a := by simp [bestUpdate, bestGt, h]
      rw [hupd]
      simp only [bestGt]
      by_cases hva : v < a
      · have hvb : v < b := hva.trans h
        simp [hva, hvb]
      · simp [hva]
    · have hupd : bestUpdate (some b) a = some b := by simp [bestUpdate, bestGt, h]
      rw [hupd]
      simp only [bestGt]
      by_cases hvb : v < b
      · have hva : v < a := hvb.trans_le (not_lt.mp h)
        simp [hva, hvb]
      · simp [hvb]

theorem foldl_bestUpdate_gt (prev : List ℚ) (v : ℚ) :
    ∀ best, bestGt (prev.foldl bestUpdate best) v =
      (bestGt best v && prev.all (fun y => decide (v < y))) := by
  induction prev with
  | nil => intro best; simp
  | cons a l ih =>
    intro best
    simp only [List.foldl_cons, List.all_cons, ih, bestGt_bestUpdate, Bool.and_assoc]

theorem checkpointRun_getElem (n : ℕ) (losses : List ℚ) :
    ∀ (e : ℕ) (best : Option ℚ) (i : ℕ) (hi : i < losses.length),
      (checkpointRun true n losses e best)[i]? =
        some (bestGt ((losses.take i).foldl bestUpdate best) (losses.get ⟨i, hi⟩),
              decide ((e + i) % n = 0)) := by
  induction losses with
  | nil => intro e best i hi; simp at hi
  | cons v rest ih =>
    intro e best i hi
    cases i with
    | zero =>
      simp [checkpointRun, Bool.true_and]
    | succ j =>
      have hj : j < rest.length := by simpa using hi
      simp only [checkpointRun, Bool.true_and, List.getElem?_cons_succ, List.take_succ_cons,
        List.foldl_cons, List.get_cons_succ]
      rw [show (if bestGt best v then some v else best) = bestUpdate best v from rfl]
      rw [ih (e + 1) (bestUpdate best v) j hj]
      have harith : e + 1 + j = e + (j + 1) := by omega
      rw [harith]

/-- Claim C1.  The claim states that `intersection_over_union_bounding_box`
returns the flag=1 sentinel exactly when the label set (equivalently the
ground-truth-positive subset of the query coordinates) is empty and the
flag=0 sentinel exactly when no prediction exceeds the threshold while the
label set is non-empty.  The code instead guards on the query coordinate set:
first conjunct — with a non-empty query set whose ground-truth-positive
subset is empty (label point (5,5,5) is never hit), the function raises at
`torch.max` over the empty subset (modelled as `none`) instead of returning
the flag=1 sentinel; second conjunct — with an empty query set and a
non-empty label set and no positive prediction, it returns the flag=1
sentinel where the claim requires the flag=0 sentinel. -/
theorem bboxIou_sentinel_misassigned :
    intersection_over_union_bounding_box [9/10] [(0,0,0)] [(5,5,5)] (1/2) (0,0,0) = none ∧
    intersection_over_union_bounding_box [] [] [(0,0,0)] (1/2) (0,0,0) =
      some (1, (0,0,0), (0,0,0)) := by
  constructor
  · norm_num [intersection_over_union_bounding_box, nearestDistZero, sqDist]
  · rfl

/-- Claim C2.  The claim states that all four metric functions accept an
empty ground-truth label set without raising, with `bbox_iou` returning the
flag=1 sentinel.  Evaluated on the empty label set with a non-empty query
set: `point_iou`, `precision` and `recall` do return values, but
`intersection_over_union_bounding_box` raises (`torch.max` over the empty
ground-truth-positive subset, modelled as `none`) instead of returning the
flag=1 sentinel. -/
theorem metric_functions_empty_label :
    intersection_over_union [9/10] [(0,0,0)] [] (1/2) = some 0 ∧
    precision [9/10] [(0,0,0)] [] (1/2) = some 0 ∧
    recallMetric [9/10] [(0,0,0)] [] (1/2) = some 0 ∧
    intersection_over_union_bounding_box [9/10] [(0,0,0)] [] (1/2) (0,0,0) = none := by
  refine ⟨?_, ?_, ?_, ?_⟩
  · norm_num [intersection_over_union, thresholdMask, labelMask, nearestDistZero, sqDist,
      metricEps]
  · norm_num [precision, thresholdMask, labelMask, nearestDistZero, sqDist, metricEps]
  · norm_num [recallMetric, thresholdMask, labelMask, nearestDistZero, sqDist, metricEps]
  · norm_num [intersection_over_union_bounding_box, nearestDistZero, sqDist]

/-- Claim C3.  For every prediction, query set, label set and threshold
(with prediction and query set of equal length, as required by the
elementwise sum in the source), `point_iou` equals
`count(G and P) / (count(G or P) + 1e-9)` where `G` marks query points at
exactly zero nearest-neighbour distance from the label set and `P` marks
prediction entries strictly above the threshold; and on label points
{(0,0,0),(1,1,1)}, query points {(0,0,0),(1,1,1),(2,2,2)}, predictions
[0.9, 0.9, 0.1] and threshold 0.5 the result is 1.0 up to the epsilon. -/
theorem pointIou_formula :
    (∀ (prediction : List ℚ) (coordinates label : List Point) (threshold : ℚ),
        prediction.length = coordinates.length →
        intersection_over_union prediction coordinates label threshold =
          some (pointIouSpec prediction coordinates label threshold)) ∧
    (intersection_over_union [9/10, 9/10, 1/10] [(0,0,0),(1,1,1),(2,2,2)]
        [(0,0,0),(1,1,1)] (1/2) = some (2000000000/2000000001) ∧
      |(2000000000/2000000001 : ℚ) - 1| ≤ 1/1000000000) := by
  refine ⟨?_, ?_, ?_⟩
  · intro pred coords label t hlen
    have hg : labelMask coords label = coords.map (fun c => decide (c ∈ label)) := by
      simp [labelMask, nearestDistZero_eq_mem]
    simp only [intersection_over_union, if_pos hlen, pointIouSpec, hg, thresholdMask, metricEps]
    rw [two_filter_count, one_filter_count]
  · norm_num [intersection_over_union, thresholdMask, labelMask, nearestDistZero, sqDist,
      metricEps]
  · rw [abs_le]
    constructor <;> norm_num

/-- Witness for claim C3's theorem at a concrete input. -/
theorem pointIou_formula_witness :
    intersection_over_union [1] [(0,0,0)] [] 0 = some (pointIouSpec [1] [(0,0,0)] [] 0) :=
  pointIou_formula.1 [1] [(0,0,0)] [] 0 rfl

/- Claim C4 concerns exact float32 behaviour (the added 1e-9 vanishes in
binary32 addition) and is not settled by a theorem in this rational
development. -/

/-- Claim C5.  For every prediction score vector and thresholds `t1 < t2`,
the number of entries classified positive at `t2` is at most the number
classified positive at `t1`: thresholding is antitone in the threshold. -/
theorem thresholdMask_antitone :
    ∀ (prediction : List ℚ) (t1 t2 : ℚ), t1 < t2 →
      (thresholdMask prediction t2).count true ≤ (thresholdMask prediction t1).count true := by
  intro pred t1 t2 h
  induction pred with
  | nil => simp [thresholdMask]
  | cons x l ih =>
    simp only [thresholdMask, List.map_cons, List.count_cons] at *
    rcases lt_or_le t2 x with h2 | h2
    · have h1 : t1 < x := h.trans h2
      simpa [h1, h2] using ih
    · have h2x : ¬ t2 < x := not_lt.mpr h2
      by_cases h1 : t1 < x
      · simp only [h1, h2x]
        simp
        omega
      · simpa [h1, h2x] using ih

/-- Witness for claim C5's theorem at a concrete input. -/
theorem thresholdMask_antitone_witness :
    (0 : ℚ) < 1/2 ∧
      (thresholdMask [1] (1/2)).count true ≤ (thresholdMask [1] 0).count true :=
  ⟨by norm_num, thresholdMask_antitone [1] 0 (1/2) (by norm_num)⟩

/-- Counterexample to claim C6 as stated: appending the `None` sentinel under
an absent name is not a no-op — it creates the named series with one sentinel
entry (its length goes from non-existent to 1). -/
theorem logging_none_creates_series :
    logging [] "x" none = [("x", [none])] ∧
    (seriesOf (logging [] "x" none) "x").map List.length = some 1 ∧
    seriesOf ([] : MetricStore) "x" = none := by
  refine ⟨rfl, rfl, rfl⟩

/-- Claim C6, amended.  Appending `None` under an existing name is a no-op;
appending `None` under an absent name creates that series holding the single
sentinel entry; appending a non-sentinel value appends exactly one entry to
the named series, creating it if absent, and leaves every other series
unchanged. -/
theorem logging_characterisation :
    ∀ (m : MetricStore) (name : String),
      (m.any (fun q => decide (q.1 = name)) = true → logging m name none = m) ∧
      (m.any (fun q => decide (q.1 = name)) = false →
        logging m name none = m ++ [(name, [none])]) ∧
      (∀ v : ℚ,
        seriesOf (logging m name (some v)) name =
          some (((seriesOf m name).getD []) ++ [some v]) ∧
        (∀ other : String, other ≠ name →
          seriesOf (logging m name (some v)) other = seriesOf m other)) := by
  intro m name
  refine ⟨fun h => by simp [logging, h], fun h => by simp [logging, h], fun v => ⟨?_, ?_⟩⟩
  · by_cases h : m.any (fun q => decide (q.1 = name)) = true
    · obtain ⟨x, hx, hpx⟩ := List.any_eq_true.mp h
      have hs : (m.find? (fun q => decide (q.1 = name))).isSome :=
        List.find?_isSome.mpr ⟨x, hx, hpx⟩
      obtain ⟨y, hy⟩ := Option.isSome_iff_exists.mp hs
      simp only [logging, if_pos h, seriesOf]
      rw [find_map_update, hy]
      simp
    · have hnone : m.find? (fun q => decide (q.1 = name)) = none := by
        rw [List.find?_eq_none]
        intro x hx
        rw [List.any_eq_true] at h
        push_neg at h
        simpa using h x hx
      simp only [logging, if_neg h, seriesOf]
      rw [List.find?_append, hnone]
      simp
  · intro other hother
    by_cases h : m.any (fun q => decide (q.1 = name)) = true
    · simp only [logging, if_pos h, seriesOf]
      rw [find_map_other m name other v hother]
    · simp only [logging, if_neg h, seriesOf]
      rw [List.find?_append]
      have hne : ¬ (name = other) := fun hh => hother hh.symm
      have hlast : ([(name, [some v])].find? (fun q => decide (q.1 = other))) = none := by
        simp [hne]
      rw [hlast]
      simp

/-- Witness for claim C6's amended theorem at concrete inputs. -/
theorem logging_characterisation_witness :
    logging [("a", [some (1:ℚ)])] "a" none = [("a", [some 1])] ∧
    logging ([] : MetricStore) "b" none = [("b", [none])] ∧
    seriesOf (logging [("a", [some (1:ℚ)])] "a" (some 2)) "a" = some [some 1, some 2] ∧
    seriesOf (logging [("a", [some (1:ℚ)])] "a" (some 2)) "c" =
      seriesOf [("a", [some (1:ℚ)])] "c" := by
  refine ⟨(logging_characterisation [("a", [some (1:ℚ)])] "a").1 (by decide),
    (logging_characterisation ([] : MetricStore) "b").2.1 (by decide),
    (((logging_characterisation [("a", [some (1:ℚ)])] "a").2.2 2).1).trans (by rfl),
    ((logging_characterisation [("a", [some (1:ℚ)])] "a").2.2 2).2 "c" (by decide)⟩

/-- Claim C7.  For every metric store, metric name and epoch, whenever the
named series and the reserved `epoch` series are positionally aligned, the
per-epoch average equals the arithmetic mean of exactly those values whose
aligned epoch entry equals the requested epoch (stated for a non-empty,
sentinel-free matching subset, where the source's `np.mean` is the ordinary
mean); in particular with metric values [1, 3, 5] aligned to epoch entries
[0, 0, 1] the average for epoch 0 is 2 and the average for epoch 1 is 5. -/
theorem averageForEpoch_mean :
    (∀ (metrics : MetricStore) (name : String) (e : ℚ)
        (metric epochs : List (Option ℚ)) (vals : List ℚ),
        seriesOf metrics name = some metric →
        seriesOf metrics "epoch" = some epochs →
        metric.length = epochs.length →
        matchedValues metric epochs e = vals.map some →
        vals ≠ [] →
        get_average_metric_for_epoch metrics name e =
          some (vals.sum / (vals.length : ℚ))) ∧
    (get_average_metric_for_epoch
        [("loss", [some 1, some 3, some 5]), ("epoch", [some 0, some 0, some 1])] "loss" 0 =
          some 2 ∧
      get_average_metric_for_epoch
        [("loss", [some 1, some 3, some 5]), ("epoch", [some 0, some 0, some 1])] "loss" 1 =
          some 5) := by
  have main : ∀ (metrics : MetricStore) (name : String) (e : ℚ)
      (metric epochs : List (Option ℚ)) (vals : List ℚ),
      seriesOf metrics name = some metric →
      seriesOf metrics "epoch" = some epochs →
      metric.length = epochs.length →
      matchedValues metric epochs e = vals.map some →
      vals ≠ [] →
      get_average_metric_for_epoch metrics name e =
        some (vals.sum / (vals.length : ℚ)) := by
    intro ms name e metric epochs vals h1 h2 hlen hmatch hne
    simp only [get_average_metric_for_epoch, h1, h2]
    rw [if_pos (argwhere_bounds metric epochs e hlen)]
    rw [argwhere_select epochs metric e hlen, hmatch]
    have hvne : (vals.map some).isEmpty = false := by
      cases vals with
      | nil => exact absurd rfl hne
      | cons a l => rfl
    rw [if_pos (by simp [hvne])]
    rw [filterMap_id_map_some]
    simp
  refine ⟨main, ?_, ?_⟩
  · have h0 := main [("loss", [some 1, some 3, some 5]), ("epoch", [some 0, some 0, some 1])]
      "loss" 0 [some 1, some 3, some 5] [some 0, some 0, some 1] [1, 3]
      rfl rfl rfl (by decide) (by decide)
    rw [h0]
    norm_num
  · have h1 := main [("loss", [some 1, some 3, some 5]), ("epoch", [some 0, some 0, some 1])]
      "loss" 1 [some 1, some 3, some 5] [some 0, some 0, some 1] [5]
      rfl rfl rfl (by decide) (by decide)
    rw [h1]
    norm_num

/-- Witness for claim C7's theorem at a concrete input. -/
theorem averageForEpoch_mean_witness :
    get_average_metric_for_epoch
        [("loss", [some 1, some 3, some 5]), ("epoch", [some 0, some 0, some 1])] "loss" 0 =
      some (([1, 3] : List ℚ).sum / ((([1, 3] : List ℚ).length : ℕ) : ℚ)) :=
  averageForEpoch_mean.1
    [("loss", [some 1, some 3, some 5]), ("epoch", [some 0, some 0, some 1])]
    "loss" 0 [some 1, some 3, some 5] [some 0, some 0, some 1] [1, 3]
    rfl rfl rfl (by decide) (by decide)

/-- Claim C8.  With best-model saving enabled (the default
`save_best_model=True`) and any interval `n`, at epoch `i` of a run with
per-epoch validation losses `losses`: the best checkpoint is written iff the
epoch's validation loss is strictly below every earlier validation loss
(equivalently, strictly below the best seen so far, which starts at
`np.inf` and is updated to the new loss exactly when the best checkpoint is
written), and the periodic checkpoint is written iff `i % n = 0`; the two
components of the pair are decided by independent conditions and can both
hold in the same epoch (see the witness). -/
theorem checkpoint_policy :
    ∀ (losses : List ℚ) (n i : ℕ) (hi : i < losses.length), 0 < n →
      (trainCheckpoints true n losses)[i]? =
        some ((losses.take i).all (fun y => decide (losses.get ⟨i, hi⟩ < y)),
              decide (i % n = 0)) := by
  intro losses n i hi hn
  rw [trainCheckpoints, checkpointRun_getElem n losses 0 none i hi,
    foldl_bestUpdate_gt (losses.take i) (losses.get ⟨i, hi⟩) none]
  simp [bestGt]

/-- Witness for claim C8's theorem: at epoch 0 with interval 1 both the best
checkpoint and the periodic checkpoint are written in the same epoch. -/
theorem checkpoint_policy_witness :
    0 < 1 ∧ (0 : ℕ) < ([(5:ℚ), 4] : List ℚ).length ∧
      (trainCheckpoints true 1 [(5:ℚ), 4])[0]? = some (true, true) := by
  refine ⟨Nat.one_pos, by norm_num, ?_⟩
  have h := checkpoint_policy [(5:ℚ), 4] 1 0 (by norm_num) Nat.one_pos
  rw [h]
  rfl

/-- Claim C9.  `save_metrics` with the timestamp option off writes exactly one
artifact per metric name, under a file name determined only by the path and
the metric name (hence a later call with the same store and path overwrites
the same files); but with `add_time_to_file_name=True` the call does not
succeed: `datetime.now()` raises `AttributeError` (the module, not the class,
is in scope), modelled as `none`, as soon as there is at least one metric to
write. -/
theorem saveMetrics_timestamp_raises :
    (∀ (metrics : MetricStore) (path : String),
      save_metrics metrics path false =
        some (metrics.map (fun q => (path ++ "/" ++ q.1 ++ ".pt", q.2)))) ∧
    save_metrics [("loss", [some 1])] "metrics" true = none :=
  ⟨save_metrics_no_time, rfl⟩

/-- Claim C10.  For every periodic-save interval `n ≥ 1` and every run with
at least one epoch, the periodic-checkpoint decision of epoch 0 is positive
(`0 % n = 0`), independently of the best-checkpoint flag — even a one-epoch
run produces an epoch-indexed checkpoint. -/
theorem first_epoch_periodic_save :
    ∀ (save_best_model : Bool) (n : ℕ) (v : ℚ) (losses : List ℚ), 0 < n →
      ((trainCheckpoints save_best_model n (v :: losses)).head?).map (fun q => q.2) =
        some true := by
  intro sb n v losses hn
  simp [trainCheckpoints, checkpointRun, Nat.zero_mod]

/-- Witness for claim C10's theorem at a concrete input. -/
theorem first_epoch_periodic_save_witness :
    0 < 10 ∧
      ((trainCheckpoints false 10 [(7:ℚ)]).head?).map (fun q => q.2) = some true :=
  ⟨by norm_num, first_epoch_periodic_save false 10 7 [] (by norm_num)⟩
